import Mathlib

/-!
Verification of the LangAgent agent-orchestration engine.

Shallow embedding of the repository's core:
* `src/src/core/state.py` — the shared agent state and its field-level merge
  policy (the `add_messages` append reducer on `messages`, last-write-wins on
  the other fields);
* `src/src/core/workflow.py` — `WorkflowBuilder`, `create_tool_continue_condition`;
* `src/src/meeting_room/agent.py` / `agent_v2.py` — the supervisor node's
  decision parsing and the chat history handling;
* `src/src/meeting_room/tool_classifier.py` — `MCPToolClassifier`;
* `src/src/core/agent.py` — `BaseAgent.prepare_state`, `SimpleReActAgent.define_workflow`.

The graph execution engine itself (node stepping, state merging, edge
resolution) and the compiled-graph snapshot live in the external langgraph
dependency; those parts are modelled from the specification, as marked on the
individual definitions.
-/

/-- A pending tool invocation carried by an assistant message
(langchain tool call: id, tool name, argument payload). -/
structure ToolCall where
  id : String
  name : String
  args : String
deriving DecidableEq

/-- Message records, mirroring the langchain message classes used by the code:
`HumanMessage`, `AIMessage` (the only class carrying a `tool_calls` attribute),
`ToolMessage` (tool result, with originating tool name and call id), and
`SystemMessage`. -/
inductive Msg where
  | human (content : String)
  | ai (content : String) (tool_calls : List ToolCall)
  | tool (name : String) (content : String) (tool_call_id : String)
  | system (content : String)
deriving DecidableEq

/-- Free-form auxiliary payload (the `context: Optional[dict]` field),
modelled opaquely as a string-keyed record. -/
abbrev Ctx := List (String × String)

/-- The shared agent state of `src/src/core/state.py` (`BaseState`) and
`src/src/meeting_room/state.py` (`MeetingState`): the transcript plus the
optional `user_id`, `intent`, `current_agent` and `context` fields. -/
structure AgentState where
  messages : List Msg
  user_id : Option String
  intent : Option String
  current_agent : Option String
  context : Option Ctx
deriving DecidableEq

/-- A partial state update as returned by a node: each field is either absent
(`none`) or present with a value (`some v`, where `v` may itself be the Python
`None` for the optional fields). -/
structure PartialState where
  messages : Option (List Msg)
  user_id : Option (Option String)
  intent : Option (Option String)
  current_agent : Option (Option String)
  context : Option (Option Ctx)
deriving DecidableEq

/-- The partial update carrying no keys at all (a node returning `{}`). -/
def emptyPartial : PartialState :=
  { messages := none, user_id := none, intent := none,
    current_agent := none, context := none }

/-- Modelled from the spec: the field-level state merge applied by the engine
after each node, missing from `src/` (it is langgraph's channel update driven
by the reducer annotations declared in `src/src/core/state.py`). The
`messages` field is declared with the `add_messages` append reducer: a present
`messages` key is concatenated onto the base transcript. Every other field has
no reducer, so a present key replaces the base value (last-write-wins) and an
absent key leaves the base value untouched. -/
def mergeState (base : AgentState) (p : PartialState) : AgentState :=
  { messages :=
      match p.messages with
      | none => base.messages
      | some ms => base.messages ++ ms
    user_id := p.user_id.getD base.user_id
    intent := p.intent.getD base.intent
    current_agent := p.current_agent.getD base.current_agent
    context := p.context.getD base.context }

/-- langgraph's terminal marker `END` (the string sentinel used by the code
via `from langgraph.graph import END`). -/
def ENDNODE : String := "__end__"

/-- Whether a message object has a `tool_calls` attribute: of the langchain
message classes used by the code, only `AIMessage` does. -/
def msgHasToolCallsAttr : Msg → Bool
  | Msg.ai _ _ => true
  | _ => false

/-- The `tool_calls` attribute of a message (empty for classes without it). -/
def msgToolCalls : Msg → List ToolCall
  | Msg.ai _ tcs => tcs
  | _ => []

/-- Embedding of `create_tool_continue_condition` from
`src/src/core/workflow.py` (and of the identical inner `should_continue`
routers): the returned router reads `state.get("messages", [])`, returns the
terminal label on an empty transcript, and otherwise returns the tool node's
name exactly when the last message has a truthy `tool_calls` attribute. -/
def createToolContinueCondition (toolsNodeName endNode : String)
    (state : AgentState) : String :=
  let messages := state.messages
  if messages = [] then endNode
  else
    match messages.getLast? with
    | none => endNode
    | some last =>
        if msgHasToolCallsAttr last && !(msgToolCalls last).isEmpty then
          toolsNodeName
        else endNode

/-- The opening-brace character, written by code point. -/
def braceOpen : Char := Char.ofNat 123

/-- The closing-brace character, written by code point. -/
def braceClose : Char := Char.ofNat 125

/-- Drop leading JSON whitespace (space, tab, carriage return, newline). -/
def skipWs : List Char → List Char
  | [] => []
  | c :: cs => if c.isWhitespace then skipWs cs else c :: cs

/-- Parse the body of a JSON string after its opening quote, up to the closing
quote.  Escape sequences are outside the modelled subset and fail the parse. -/
def parseStrBody : Nat → List Char → List Char → Option (String × List Char)
  | 0, _, _ => none
  | _ + 1, _, [] => none
  | fuel + 1, acc, c :: cs =>
    if c = '"' then some (String.mk acc.reverse, cs)
    else if c = '\\' then none
    else parseStrBody fuel (c :: acc) cs

/-- Parse the members of a non-empty JSON object of string keys and string
values, consuming up to and including the closing brace. -/
def parseMembers : Nat → List Char → List (String × String) →
    Option (List (String × String) × List Char)
  | 0, _, _ => none
  | fuel + 1, cs, acc =>
    match skipWs cs with
    | [] => none
    | q :: rest =>
      if q = '"' then
        match parseStrBody (rest.length + 1) [] rest with
        | none => none
        | some (key, r1) =>
          match skipWs r1 with
          | [] => none
          | colon :: r2 =>
            if colon = ':' then
              match skipWs r2 with
              | [] => none
              | q2 :: r3 =>
                if q2 = '"' then
                  match parseStrBody (r3.length + 1) [] r3 with
                  | none => none
                  | some (val, r4) =>
                    match skipWs r4 with
                    | [] => none
                    | sep :: r5 =>
                      if sep = ',' then parseMembers fuel r5 (acc ++ [(key, val)])
                      else if sep = braceClose then some (acc ++ [(key, val)], r5)
                      else none
                else none
            else none
      else none

/-- Modelled from the spec: the Python `json.loads` used by the supervisor
node, restricted to the decision-object shape the supervisor prompt elicits —
a flat JSON object with string keys and string values.  Inputs outside this
subset (arrays, numbers, nested objects, top-level scalars, escapes) are
treated as decode failures. -/
def jsonDecode (s : String) : Option (List (String × String)) :=
  match skipWs s.data with
  | [] => none
  | c :: rest =>
    if c = braceOpen then
      match skipWs rest with
      | [] => none
      | d :: rest2 =>
        if d = braceClose then
          if skipWs rest2 = [] then some [] else none
        else
          match parseMembers (rest.length + 1) rest [] with
          | none => none
          | some (obj, tail) => if skipWs tail = [] then some obj else none
    else none

/-- Python `dict.get(key, default)` on an object built key-by-key (a later
duplicate key overwrites an earlier one, hence the reversed lookup). -/
def dictGet (d : List (String × String)) (k dflt : String) : String :=
  (d.reverse.lookup k).getD dflt

/-- Split a character list at every occurrence of a non-empty separator,
scanning left to right over non-overlapping occurrences (the semantics of
Python `str.split` with a separator argument). -/
def splitOnList (sep : List Char) : Nat → List Char → List Char → List (List Char)
  | 0, acc, _ => [acc.reverse]
  | _ + 1, acc, [] => [acc.reverse]
  | fuel + 1, acc, c :: cs =>
    if sep.isPrefixOf (c :: cs) then
      acc.reverse :: splitOnList sep fuel [] (List.drop sep.length (c :: cs))
    else splitOnList sep fuel (c :: acc) cs

/-- Python `s.split(sep)` for a non-empty separator (the only way the code
calls it); an empty separator is never produced by the code and is mapped to
the identity split. -/
def pySplit (s sep : String) : List String :=
  if sep.data = [] then [s]
  else (splitOnList sep.data (s.data.length + 1) [] s.data).map String.mk

/-- Python `s.strip()` restricted to ASCII whitespace: drop whitespace from
both ends. -/
def pyStrip (s : String) : String :=
  String.mk (((s.data.dropWhile Char.isWhitespace).reverse.dropWhile Char.isWhitespace).reverse)

/-- Embedding of the markdown code-fence stripping performed by
`supervisor_node` in `src/src/meeting_room/agent.py` (and identically in
`agent_v2.py`): if the reply contains a fence labelled `json`, keep the text
between that fence and the next fence; otherwise, if it contains any fence,
keep the text between the first two fences; otherwise keep the reply as is. -/
def extractFenced (content : String) : String :=
  if (pySplit content "```json").length > 1 then
    (pySplit ((pySplit content "```json").getD 1 "") "```").getD 0 ""
  else if (pySplit content "```").length > 1 then
    (pySplit ((pySplit content "```").getD 1 "") "```").getD 0 ""
  else content

/-- The fixed default clarification question of `supervisor_node`. -/
def defaultClarification : String := "請問您想要預約會議室、查詢會議室，還是管理已有的預約？"

/-- The configured default route taken by `supervisor_node` when decoding the
model reply fails (`except (json.JSONDecodeError, KeyError)`). -/
def queryFallback : PartialState :=
  { messages := none, user_id := none, intent := some (some "query"),
    current_agent := some (some "query_agent"), context := none }

/-- Embedding of the parse-and-route logic of `supervisor_node`
(`src/src/meeting_room/agent.py` lines 143-173, identical in `agent_v2.py`),
as a function of the model reply's content: strip code fences, decode the
decision object (`json.loads` modelled by `jsonDecode` on its subset), read
`intent` with default sentinel `"unclear"`; the unclear branch appends a
clarification message and clears `intent`, any other intent sets
`intent`/`current_agent` with no message, and a decode failure is absorbed
into the default query route. -/
def supervisorUpdate (content : String) : PartialState :=
  match jsonDecode (pyStrip (extractFenced content)) with
  | none => queryFallback
  | some decision =>
    let intent := dictGet decision "intent" "unclear"
    if intent = "unclear" then
      { messages := some [Msg.ai (dictGet decision "clarification_needed" defaultClarification) []],
        user_id := none,
        intent := some none,
        current_agent := some (some "supervisor"),
        context := none }
    else
      { messages := none,
        user_id := none,
        intent := some (some intent),
        current_agent := some (some (dictGet decision "agent" (intent ++ "_agent"))),
        context := none }

/-- A callable tool as seen by the classifier: its `name` and `description`
attributes (langchain `BaseTool`). -/
structure Tool where
  name : String
  description : String
deriving DecidableEq

/-- Python `dict.get(key, default)` for an arbitrary value type. -/
def pyDictGet {α : Type} (d : List (String × α)) (k : String) (dflt : α) : α :=
  (d.reverse.lookup k).getD dflt

/-- Python `str.lower()` restricted to ASCII letters. -/
def pyLower (s : String) : String :=
  String.mk (s.data.map Char.toLower)

/-- Python `str.startswith(p)`. -/
def pyStartsWith (s p : String) : Bool :=
  p.data.isPrefixOf s.data

/-- Python `p in s` substring membership. -/
def pyContains (s pat : String) : Bool :=
  if pat.data = [] then true else (pySplit s pat).length != 1

/-- Python `list(set(xs))`, modelled as duplicate removal; the claims below
depend only on membership, which a set conversion preserves. -/
def listSet (xs : List String) : List String :=
  xs.eraseDups

/-- `TOOL_CLASSIFICATION_CONFIG` from `src/src/meeting_room/tool_classifier.py`:
the static name-to-categories table of the explicit strategy. -/
def TOOL_CLASSIFICATION_CONFIG : List (String × List String) :=
  [("get_available_buildings", ["booking", "query"]),
   ("get_available_rooms", ["booking", "query"]),
   ("book_meeting_room", ["booking"]),
   ("get_user_reservations", ["management"]),
   ("cancel_reservation", ["management"])]

/-- `TOOL_PREFIX_PATTERNS` from `tool_classifier.py`: the per-category name
patterns of the prefix strategy. -/
def TOOL_PREFIX_PATTERNS : List (String × List String) :=
  [("booking", ["book_", "reserve_", "get_available_"]),
   ("query", ["get_", "list_", "search_", "query_"]),
   ("management", ["cancel_", "update_", "delete_", "get_user_", "my_"])]

/-- `TOOL_CATEGORY_BY_KEYWORDS` from `tool_classifier.py`: the per-category
keyword lists of the keyword strategy. -/
def TOOL_CATEGORY_BY_KEYWORDS : List (String × List String) :=
  [("booking", ["預約", "訂", "book", "reserve", "安排"]),
   ("query", ["查詢", "搜尋", "列出", "query", "search", "list", "get"]),
   ("management", ["取消", "管理", "我的", "cancel", "delete", "update", "my"])]

/-- The `MCPToolClassifier` object: its strategy string and its (explicit)
classification table. -/
structure Classifier where
  strategy : String
  config : List (String × List String)

/-- `MCPToolClassifier.__init__`: `self.config = custom_config or
TOOL_CLASSIFICATION_CONFIG` — an absent or empty (falsy) custom table falls
back to the default table. -/
def mkClassifier (strategy : String)
    (customConfig : Option (List (String × List String))) : Classifier :=
  { strategy := strategy,
    config := match customConfig with
      | some (e :: es) => e :: es
      | _ => TOOL_CLASSIFICATION_CONFIG }

/-- `MCPToolClassifier._classify_by_explicit`: look the tool's name up in the
configured table, defaulting to no categories. -/
def classifyByExplicit (c : Classifier) (t : Tool) : List String :=
  pyDictGet c.config t.name []

/-- `MCPToolClassifier._classify_by_prefix`: lower-case the tool name and
collect every category one of whose name patterns starts the name (the inner
loop breaks after the first matching pattern, i.e. an existential test),
then convert through a set. -/
def classifyByPrefixes (t : Tool) : List String :=
  let toolName := pyLower t.name
  listSet (TOOL_PREFIX_PATTERNS.foldl
    (fun acc entry =>
      if entry.2.any (fun p => pyStartsWith toolName p) then acc ++ [entry.1]
      else acc) [])

/-- `MCPToolClassifier._classify_by_keyword`: lower-case and concatenate tool
name and description, collect every category one of whose keywords occurs as
a substring, then convert through a set. -/
def classifyByKeyword (t : Tool) : List String :=
  let description := pyLower t.description
  let toolName := pyLower t.name
  let combined := toolName ++ " " ++ description
  listSet (TOOL_CATEGORY_BY_KEYWORDS.foldl
    (fun acc entry =>
      if entry.2.any (fun kw => pyContains combined (pyLower kw)) then acc ++ [entry.1]
      else acc) [])

/-- `MCPToolClassifier._get_tool_categories`: dispatch on the strategy string,
defaulting to the explicit strategy for unknown strategies. -/
def getToolCategories (c : Classifier) (t : Tool) : List String :=
  if c.strategy = "explicit" then classifyByExplicit c t
  else if c.strategy = "prefix" then classifyByPrefixes t
  else if c.strategy = "keyword" then classifyByKeyword t
  else classifyByExplicit c t

/-- The initial `classified` dictionary of `classify_tools`: the four fixed
buckets, in literal order. -/
def emptyBuckets : List (String × List Tool) :=
  [("booking", []), ("query", []), ("management", []), ("uncategorized", [])]

/-- `if category in classified: classified[category].append(tool)` — append
the tool to the named bucket when that bucket exists, otherwise drop it. -/
def bucketAppend (b : List (String × List Tool)) (cat : String) (t : Tool) :
    List (String × List Tool) :=
  if (b.lookup cat).isSome then
    b.map (fun e => if e.1 = cat then (e.1, e.2 ++ [t]) else e)
  else b

/-- The body of `classify_tools`' per-tool loop: compute the tool's
categories; an empty result sends the tool to `uncategorized`, otherwise the
tool is appended to each computed category's bucket (if that bucket exists). -/
def classifyStep (c : Classifier) (classified : List (String × List Tool))
    (tool : Tool) : List (String × List Tool) :=
  let categories := getToolCategories c tool
  if categories = [] then bucketAppend classified "uncategorized" tool
  else categories.foldl (fun cl cat => bucketAppend cl cat tool) classified

/-- `MCPToolClassifier.classify_tools` from
`src/src/meeting_room/tool_classifier.py` lines 83-113. -/
def classifyTools (c : Classifier) (tools : List Tool) :
    List (String × List Tool) :=
  tools.foldl (classifyStep c) emptyBuckets

/-- Read one bucket of a classification result. -/
def bucket (b : List (String × List Tool)) (k : String) : List Tool :=
  (b.lookup k).getD []

/-- A registered graph node: a handler function returning a partial update, or
a tool node (the tools are modelled by their executor, mapping a pending tool
invocation to its serialized result). -/
inductive Node where
  | handler (f : AgentState → PartialState)
  | toolNode (exec : ToolCall → String)

/-- An edge of the builder: unconditional, or conditional with a router and a
label-to-target mapping. -/
inductive EdgeDef where
  | direct (source target : String)
  | conditional (source : String) (router : AgentState → String)
    (mapping : List (String × String))

/-- The source of an edge. -/
def edgeSource : EdgeDef → String
  | EdgeDef.direct s _ => s
  | EdgeDef.conditional s _ _ => s

/-- `WorkflowBuilder` from `src/src/core/workflow.py`: the accumulated node
registry, edge list and entry point. -/
structure WorkflowBuilder where
  nodes : List (String × Node)
  edges : List EdgeDef
  entry_point : Option String

/-- `WorkflowBuilder.__init__`: empty registry, no edges, unset entry point. -/
def newBuilder : WorkflowBuilder :=
  { nodes := [], edges := [], entry_point := none }

/-- Python dict assignment `d[k] = v`: overwrite the entry when the key is
present (keeping its position), append a new entry otherwise. -/
def dictInsert {α : Type} (d : List (String × α)) (k : String) (v : α) :
    List (String × α) :=
  if (d.lookup k).isSome then
    d.map (fun e => if e.1 = k then (e.1, v) else e)
  else d ++ [(k, v)]

/-- Embedding of `WorkflowBuilder.add_node` (lines 112-137 of
`src/src/core/workflow.py`): the builder unconditionally stores the node
definition under its name (`self.nodes[name] = node_def`) — there is no
duplicate-name check anywhere in the builder. -/
def addNode (b : WorkflowBuilder) (name : String) (node : Node) :
    WorkflowBuilder :=
  { b with nodes := dictInsert b.nodes name node }

/-- The build-time error taxonomy named by the specification.  No such error
type exists anywhere in the repository; it is introduced here only to state
the specification's claimed behaviour. -/
inductive BuildError where
  | duplicateNodeError
deriving DecidableEq

/-- The outcome of the code's `add_node` viewed in the error monad: the
builder's own code never raises, so the call always succeeds with the updated
builder.  (The delegated `self.workflow.add_node` belongs to the external
langgraph dependency; whatever it may raise, it is not a repository-defined
`DuplicateNodeError`.) -/
def addNodeResult (b : WorkflowBuilder) (name : String) (node : Node) :
    Except BuildError WorkflowBuilder :=
  Except.ok (addNode b name node)

/-- Modelled from the spec (for comparison with the code): the specification's
`add_node`, which "fails with DuplicateNodeError if name already registered". -/
def addNodeSpec (b : WorkflowBuilder) (name : String) (node : Node) :
    Except BuildError WorkflowBuilder :=
  if (b.nodes.lookup name).isSome then Except.error BuildError.duplicateNodeError
  else Except.ok (addNode b name node)

/-- `WorkflowBuilder.add_edge`: record and register an unconditional edge. -/
def addEdge (b : WorkflowBuilder) (source target : String) : WorkflowBuilder :=
  { b with edges := b.edges ++ [EdgeDef.direct source target] }

/-- `WorkflowBuilder.add_conditional_edge`: record and register a conditional
edge. -/
def addConditionalEdge (b : WorkflowBuilder) (source : String)
    (router : AgentState → String) (mapping : List (String × String)) :
    WorkflowBuilder :=
  { b with edges := b.edges ++ [EdgeDef.conditional source router mapping] }

/-- `WorkflowBuilder.set_entry_point`. -/
def setEntryPoint (b : WorkflowBuilder) (name : String) : WorkflowBuilder :=
  { b with entry_point := some name }

/-- The compiled graph: entry point, node table and edge table, fixed at
compile time. -/
structure CompiledGraph where
  entry : String
  nodes : List (String × Node)
  edges : List EdgeDef

/-- Modelled from the spec: `WorkflowBuilder.compile` delegates to langgraph's
`StateGraph.compile`, which builds the compiled graph's own node and edge
tables from the builder's contents at the moment of the call (copy-on-compile;
langgraph itself warns that later additions "will not be reflected in the
compiled graph"). -/
def compileBuilder (b : WorkflowBuilder) : CompiledGraph :=
  { entry := b.entry_point.getD ENDNODE, nodes := b.nodes, edges := b.edges }

/-- A post-compile builder mutation, one per mutating builder operation. -/
inductive BuilderOp where
  | opAddNode (name : String) (node : Node)
  | opAddEdge (source target : String)
  | opAddConditionalEdge (source : String) (router : AgentState → String)
    (mapping : List (String × String))
  | opSetEntryPoint (name : String)

/-- Apply one builder mutation. -/
def applyOp (b : WorkflowBuilder) : BuilderOp → WorkflowBuilder
  | BuilderOp.opAddNode name node => addNode b name node
  | BuilderOp.opAddEdge s t => addEdge b s t
  | BuilderOp.opAddConditionalEdge s r m => addConditionalEdge b s r m
  | BuilderOp.opSetEntryPoint n => setEntryPoint b n

/-- Apply a sequence of builder mutations in order. -/
def applyOps (b : WorkflowBuilder) (ops : List BuilderOp) : WorkflowBuilder :=
  ops.foldl applyOp b

/-- The program-order composition "compile first, mutate the builder
afterwards": the compiled graph obtained before the mutations, paired with the
mutated builder. -/
def compileThenMutate (b : WorkflowBuilder) (ops : List BuilderOp) :
    CompiledGraph × WorkflowBuilder :=
  (compileBuilder b, applyOps b ops)

/-- Modelled from the spec: executing one node.  A handler node returns its
partial update; a tool node dispatches every pending tool invocation of the
last (assistant) message, producing one tool-result message per invocation,
in invocation order. -/
def runNode (state : AgentState) : Node → PartialState
  | Node.handler f => f state
  | Node.toolNode exec =>
    match state.messages.getLast? with
    | some (Msg.ai _ tcs) =>
      { messages := some (tcs.map (fun tc => Msg.tool tc.name (exec tc) tc.id)),
        user_id := none, intent := none, current_agent := none, context := none }
    | _ =>
      { messages := some [], user_id := none, intent := none,
        current_agent := none, context := none }

/-- Modelled from the spec: resolve the next node after `node` using the
post-merge state — a direct edge gives its fixed target, a conditional edge
looks the router's label up in its mapping (an unmapped label is a routing
error, `none`). -/
def resolveNext (g : CompiledGraph) (node : String) (s : AgentState) :
    Option String :=
  match g.edges.find? (fun e => edgeSource e = node) with
  | some (EdgeDef.direct _ target) => some target
  | some (EdgeDef.conditional _ router mapping) => mapping.lookup (router s)
  | none => none

/-- Modelled from the spec: the execution engine.  Starting from a node,
repeatedly run the current node, merge its partial update into the state, and
follow the resolved edge, stopping at the terminal marker.  Returns the final
state and the list of executed node names; `none` on a missing node, an
unmapped routing label, or fuel exhaustion. -/
def runEngine : Nat → CompiledGraph → String → AgentState → List String →
    Option (AgentState × List String)
  | 0, _, _, _, _ => none
  | fuel + 1, g, node, s, trace =>
    if node = ENDNODE then some (s, trace)
    else
      match g.nodes.lookup node with
      | none => none
      | some n =>
        let s' := mergeState s (runNode s n)
        match resolveNext g node s' with
        | none => none
        | some nxt => runEngine fuel g nxt s' (trace ++ [node])

/-- Invoke a compiled graph from its entry point. -/
def invokeGraph (fuel : Nat) (g : CompiledGraph) (s : AgentState) :
    Option (AgentState × List String) :=
  runEngine fuel g g.entry s []

/-- Whether a message is an assistant (`AIMessage`) message. -/
def isAssistantMsg : Msg → Bool
  | Msg.ai _ _ => true
  | _ => false

/-- The single pending tool invocation returned by the model stub's first
call. -/
def stubToolCall : ToolCall :=
  { id := "call_1", name := "get_weather", args := "\x7b\x7d" }

/-- The model stub of the end-to-end scenario: on its first call (no
assistant message in its input yet) it returns an assistant message carrying
one pending tool invocation; on its second call (its input already contains
an assistant message) it returns plain text. -/
def stubModel (msgs : List Msg) : Msg :=
  if msgs.any isAssistantMsg then Msg.ai "Here is your answer." []
  else Msg.ai "" [stubToolCall]

/-- The agent handler produced by `BaseAgent.create_agent_handler`
(`src/src/core/agent.py`) as instantiated by `SimpleReActAgent`: prepend a
system message built from the system prompt and the extra user context, invoke
the model, and return the reply as the sole appended message. -/
def reactAgentHandler (state : AgentState) : PartialState :=
  let fullPrompt :=
    "你是一個智能助手。" ++ "\n\n" ++ ("當前用戶: " ++ state.user_id.getD "unknown")
  let agentMessages := Msg.system fullPrompt :: state.messages
  { messages := some [stubModel agentMessages], user_id := none,
    intent := none, current_agent := none, context := none }

/-- The scenario's tool stub: every invocation returns a fixed result. -/
def stubToolExec (_ : ToolCall) : String := "sunny"

/-- The ReAct workflow of `SimpleReActAgent.define_workflow`
(`src/src/core/agent.py` lines 452-472), built through the embedded builder:
agent node, tool node, entry point "agent", conditional edge through
`create_tool_continue_condition`, and the edge from the tool node back to the
agent. -/
def reactGraph : CompiledGraph :=
  compileBuilder
    (addEdge
      (addConditionalEdge
        (setEntryPoint
          (addNode
            (addNode newBuilder "agent" (Node.handler reactAgentHandler))
            "tools" (Node.toolNode stubToolExec))
          "agent")
        "agent" (createToolContinueCondition "tools" ENDNODE)
        [("tools", "tools"), (ENDNODE, ENDNODE)])
      "tools" "agent")

/-- The scenario's initial state: one user message. -/
def reactInitialState : AgentState :=
  { messages := [Msg.human "What is the weather?"],
    user_id := some "default_user", intent := none,
    current_agent := none, context := none }

/-- A Python heap of message lists: list objects indexed by reference, so that
in-place mutation and aliasing are observable. -/
abbrev Heap := List (List Msg)

/-- Read the list object behind a reference. -/
def heapGet (h : Heap) (r : Nat) : List Msg := h.getD r []

/-- Overwrite the list object behind a reference. -/
def heapSet (h : Heap) (r : Nat) (v : List Msg) : Heap := h.set r v

/-- Embedding of the history handling of `MeetingRoomAgent.chat`
(`src/src/meeting_room/agent.py` lines 335-359): `messages = history or []`
aliases the caller's list when it is truthy (non-`None` and non-empty) and
otherwise creates a fresh empty list; `messages.append(HumanMessage(message))`
then mutates that list in place.  Returns the updated heap and the reference
of the list handed to the graph. -/
def meetingRoomChatPrepare (h : Heap) (history : Option Nat) (message : String) :
    Heap × Nat :=
  match history with
  | some r =>
    if (heapGet h r).isEmpty then (h ++ [[Msg.human message]], h.length)
    else (heapSet h r (heapGet h r ++ [Msg.human message]), r)
  | none => (h ++ [[Msg.human message]], h.length)

/-- Embedding of the history handling of `SimpleBookingAgent.chat`
(`src/src/meeting_room/agent.py` lines 443-457), textually identical to
`MeetingRoomAgent.chat`'s. -/
def simpleBookingChatPrepare (h : Heap) (history : Option Nat) (message : String) :
    Heap × Nat :=
  match history with
  | some r =>
    if (heapGet h r).isEmpty then (h ++ [[Msg.human message]], h.length)
    else (heapSet h r (heapGet h r ++ [Msg.human message]), r)
  | none => (h ++ [[Msg.human message]], h.length)

/-- Embedding of the history handling of `BaseAgent.prepare_state`
(`src/src/core/agent.py` lines 161-184): `messages = list(history) if history
else []` copies the caller's list (or creates a fresh one) before appending,
so the heap is only ever extended with a new list object. -/
def prepareStateMessages (h : Heap) (history : Option Nat) (message : String) :
    Heap × Nat :=
  match history with
  | some r =>
    if (heapGet h r).isEmpty then (h ++ [[Msg.human message]], h.length)
    else (h ++ [heapGet h r ++ [Msg.human message]], h.length)
  | none => (h ++ [[Msg.human message]], h.length)

/-- C1: state merge obeys the field-level reducer laws — a `messages` key of
the partial is appended onto the base transcript, every other present key
replaces the base value, absent keys leave the base untouched, merging the
empty partial is the identity, and merging the same `messages`-carrying
partial twice appends two copies (merge is not idempotent for `messages`). -/
theorem mergeState_reducer_laws (base : AgentState) (ms : List Msg)
    (uid it ca : Option String) (cx : Option Ctx) (hne : ms ≠ []) :
    (mergeState base ⟨some ms, some uid, some it, some ca, some cx⟩).messages
      = base.messages ++ ms ∧
    (mergeState base ⟨some ms, some uid, some it, some ca, some cx⟩).user_id = uid ∧
    (mergeState base ⟨some ms, some uid, some it, some ca, some cx⟩).intent = it ∧
    (mergeState base ⟨some ms, some uid, some it, some ca, some cx⟩).current_agent = ca ∧
    (mergeState base ⟨some ms, some uid, some it, some ca, some cx⟩).context = cx ∧
    (mergeState base ⟨some ms, none, none, none, none⟩).user_id = base.user_id ∧
    (mergeState base ⟨some ms, none, none, none, none⟩).intent = base.intent ∧
    (mergeState base ⟨some ms, none, none, none, none⟩).current_agent = base.current_agent ∧
    (mergeState base ⟨some ms, none, none, none, none⟩).context = base.context ∧
    mergeState base emptyPartial = base ∧
    (mergeState (mergeState base ⟨some ms, some uid, some it, some ca, some cx⟩)
        ⟨some ms, some uid, some it, some ca, some cx⟩).messages
      = base.messages ++ ms ++ ms ∧
    mergeState (mergeState base ⟨some ms, some uid, some it, some ca, some cx⟩)
        ⟨some ms, some uid, some it, some ca, some cx⟩
      ≠ mergeState base ⟨some ms, some uid, some it, some ca, some cx⟩ := by
  refine ⟨rfl, rfl, rfl, rfl, rfl, rfl, rfl, rfl, rfl, ?_, rfl, ?_⟩
  · cases base
    simp [mergeState, emptyPartial]
  · intro h
    have h2 : base.messages ++ (ms ++ ms) = base.messages ++ ms := by
      have := congrArg AgentState.messages h
      simpa [mergeState, List.append_assoc] using this
    have h3 : ms ++ ms = ms := List.append_cancel_left h2
    have h4 := congrArg List.length h3
    simp at h4
    exact hne h4

/-- Witness for C1 at a concrete base state and partial update. -/
theorem mergeState_reducer_laws_witness :
    (mergeState ⟨[Msg.human "hi"], none, none, none, none⟩
        ⟨some [Msg.ai "ok" []], some (some "u"), some none, some none, some none⟩).messages
      = [Msg.human "hi", Msg.ai "ok" []] := by
  have h := mergeState_reducer_laws ⟨[Msg.human "hi"], none, none, none, none⟩
    [Msg.ai "ok" []] (some "u") none none none (by decide)
  simpa using h.1

/-- C2: the router built by `create_tool_continue_condition` returns the
terminal label on an empty transcript, the tool node's name when the last
message carries at least one pending tool invocation, and the terminal label
otherwise. -/
theorem createToolContinueCondition_routes (toolsNodeName endNode : String)
    (state : AgentState) :
    (state.messages = [] →
      createToolContinueCondition toolsNodeName endNode state = endNode) ∧
    (∀ last, state.messages.getLast? = some last →
      (msgToolCalls last ≠ [] →
        createToolContinueCondition toolsNodeName endNode state = toolsNodeName) ∧
      (msgToolCalls last = [] →
        createToolContinueCondition toolsNodeName endNode state = endNode)) := by
  constructor
  · intro h
    simp [createToolContinueCondition, h]
  · intro last hlast
    have hne : state.messages ≠ [] := by
      intro h
      rw [h] at hlast
      simp at hlast
    constructor
    · intro htc
      have hattr : msgHasToolCallsAttr last = true := by
        cases last <;> simp_all [msgToolCalls, msgHasToolCallsAttr]
      simp [createToolContinueCondition, hne, hlast, hattr, htc,
        List.isEmpty_iff]
    · intro htc
      simp [createToolContinueCondition, hne, hlast, htc]

/-- Witness for C2: a transcript ending in an assistant message with one
pending tool invocation routes to the tool node. -/
theorem createToolContinueCondition_routes_witness :
    createToolContinueCondition "tools" ENDNODE
      ⟨[Msg.human "hi", Msg.ai "" [stubToolCall]], none, none, none, none⟩ = "tools" := by
  exact ((createToolContinueCondition_routes "tools" ENDNODE
    ⟨[Msg.human "hi", Msg.ai "" [stubToolCall]], none, none, none, none⟩).2
    (Msg.ai "" [stubToolCall]) (by decide)).1 (by decide)

/-- C5: in the ReAct graph of `SimpleReActAgent.define_workflow`, with the
model stub returning one pending tool invocation on its first call and plain
text on its second, one user message drives exactly two agent-node executions
and one tool-node execution, and the final transcript is the four messages
user, assistant-with-tool-call, tool-result, final assistant. -/
theorem simpleReact_scenario :
    invokeGraph 10 reactGraph reactInitialState =
      some ({ messages := [Msg.human "What is the weather?",
                           Msg.ai "" [stubToolCall],
                           Msg.tool "get_weather" "sunny" "call_1",
                           Msg.ai "Here is your answer." []],
              user_id := some "default_user", intent := none,
              current_agent := none, context := none },
            ["agent", "tools", "agent"]) ∧
    (invokeGraph 10 reactGraph reactInitialState).map
        (fun r => (r.1.messages.length, r.2.count "agent", r.2.count "tools"))
      = some (4, 2, 1) := by decide

/-- C8: compiling takes a snapshot — the compiled graph obtained before a
sequence of builder mutations is the same value, with the same execution
behaviour, as if the mutations had never happened (copy-on-compile). -/
theorem compileBuilder_snapshot (b : WorkflowBuilder) (ops : List BuilderOp)
    (fuel : Nat) (s : AgentState) :
    (compileThenMutate b ops).1 = compileBuilder b ∧
    invokeGraph fuel (compileThenMutate b ops).1 s
      = invokeGraph fuel (compileBuilder b) s :=
  ⟨rfl, rfl⟩

/-- C3: when the supervisor reply parses (after fence stripping) to a decision
object, an intent of "booking" with agent "booking_agent" yields the partial
setting `intent`/`current_agent` with no message appended, while an intent of
"unclear" yields an appended assistant message carrying the decision's
`clarification_needed` text (or the fixed default) with `intent` cleared. -/
theorem supervisorUpdate_parsed_decisions (content : String)
    (d : List (String × String))
    (h : jsonDecode (pyStrip (extractFenced content)) = some d) :
    (dictGet d "intent" "unclear" = "booking" →
      dictGet d "agent" "booking_agent" = "booking_agent" →
      supervisorUpdate content =
        { messages := none, user_id := none, intent := some (some "booking"),
          current_agent := some (some "booking_agent"), context := none }) ∧
    (dictGet d "intent" "unclear" = "unclear" →
      supervisorUpdate content =
        { messages := some [Msg.ai (dictGet d "clarification_needed" defaultClarification) []],
          user_id := none, intent := some none,
          current_agent := some (some "supervisor"), context := none }) := by
  constructor
  · intro h1 h2
    have hb : ("booking" : String) ++ "_agent" = "booking_agent" := rfl
    simp only [supervisorUpdate, h, h1, hb, h2]
    simp
  · intro h1
    simp [supervisorUpdate, h, h1]

/-- Witness for C3 at the specification's concrete fenced booking reply. -/
theorem supervisorUpdate_parsed_decisions_witness :
    supervisorUpdate "```json\n\x7b\"intent\":\"booking\",\"agent\":\"booking_agent\"\x7d\n```" =
      { messages := none, user_id := none, intent := some (some "booking"),
        current_agent := some (some "booking_agent"), context := none } := by
  exact (supervisorUpdate_parsed_decisions _
    [("intent", "booking"), ("agent", "booking_agent")] (by decide)).1
    (by decide) (by decide)

/-- C4 counterexample: the reply `"\x7b\x7d"` (an empty JSON object — a structure
missing the required `intent` field) does not produce the default query route;
it is parsed successfully, defaults `intent` to the "unclear" sentinel, and
yields the clarification-message partial instead. -/
theorem supervisorUpdate_missing_intent_counterexample :
    supervisorUpdate "\x7b\x7d" ≠ queryFallback ∧
    supervisorUpdate "\x7b\x7d" =
      { messages := some [Msg.ai defaultClarification []], user_id := none,
        intent := some none, current_agent := some (some "supervisor"),
        context := none } := by decide

/-- C4 (amended): every model reply whose content, after fence stripping,
fails to decode as a JSON decision object is absorbed without error into the
configured default route `intent = "query"`, `current_agent = "query_agent"`. -/
theorem supervisorUpdate_decode_failure_default (content : String)
    (h : jsonDecode (pyStrip (extractFenced content)) = none) :
    supervisorUpdate content = queryFallback := by
  simp [supervisorUpdate, h]

/-- Witness for the amended C4 at a plain-prose reply. -/
theorem supervisorUpdate_decode_failure_default_witness :
    supervisorUpdate "I think you want to book a room." = queryFallback := by
  exact supervisorUpdate_decode_failure_default _ (by decide)

/-- Looking a key up after an overwrite-style map touches only that key. -/
theorem lookup_overwriteMap {α : Type} (d : List (String × α)) (k : String)
    (v : α) (k2 : String) :
    (d.map (fun e => if e.1 = k then (e.1, v) else e)).lookup k2 =
      if k2 = k then (d.lookup k2).map (fun _ => v) else d.lookup k2 := by
  induction d with
  | nil => simp
  | cons e rest ih =>
    rcases e with ⟨a, w⟩
    by_cases he : a = k
    · subst he
      by_cases hk : k2 = a
      · subst hk
        simp [List.lookup_cons]
      · simp [List.lookup_cons, beq_eq_false_iff_ne.mpr hk, hk, ih]
    · by_cases hk : k2 = a
      · subst hk
        have hkk : ¬ k2 = k := fun hc => he hc
        simp [List.lookup_cons, he, hkk]
      · simp [List.lookup_cons, beq_eq_false_iff_ne.mpr hk, he, ih]

/-- The overwrite-style map leaves the key sequence unchanged. -/
theorem keys_overwriteMap {α : Type} (d : List (String × α)) (k : String)
    (v : α) :
    (d.map (fun e => if e.1 = k then (e.1, v) else e)).map Prod.fst =
      d.map Prod.fst := by
  induction d with
  | nil => simp
  | cons e rest ih =>
    by_cases he : e.1 = k <;> simp [he, ih]

/-- Python dict assignment: lookups after `dictInsert`. -/
theorem lookup_dictInsert {α : Type} (d : List (String × α)) (k : String)
    (v : α) (k2 : String) :
    (dictInsert d k v).lookup k2 =
      if k2 = k then some v else d.lookup k2 := by
  unfold dictInsert
  by_cases hs : (d.lookup k).isSome
  · rw [if_pos hs, lookup_overwriteMap]
    by_cases hk : k2 = k
    · subst hk
      rcases Option.isSome_iff_exists.mp hs with ⟨w, hw⟩
      simp [hw]
    · simp [hk]
  · rw [if_neg hs]
    have hnone : d.lookup k = none := by
      cases hq : d.lookup k
      · rfl
      · rw [hq] at hs
        simp at hs
    by_cases hk : k2 = k
    · subst hk
      rw [List.lookup_append, hnone]
      simp
    · rw [List.lookup_append, if_neg hk]
      have hsing : ([(k, v)] : List (String × α)).lookup k2 = none := by
        simp [List.lookup_cons, beq_eq_false_iff_ne.mpr hk]
      rw [hsing]
      cases d.lookup k2 <;> simp

/-- C7 counterexample: with the node name "agent" already registered, calling
`add_node` again with that name does not fail with a `DuplicateNodeError` —
the builder's `add_node` performs no duplicate check and succeeds. -/
theorem addNode_duplicate_counterexample :
    (((addNode newBuilder "agent" (Node.handler reactAgentHandler)).nodes.lookup
        "agent").isSome = true) ∧
    addNodeResult (addNode newBuilder "agent" (Node.handler reactAgentHandler))
        "agent" (Node.toolNode stubToolExec)
      ≠ Except.error BuildError.duplicateNodeError := by
  refine ⟨by decide, fun h => Except.noConfusion h⟩

/-- C7 (amended): calling `add_node` with a name already registered raises no
repository-defined error; it overwrites the builder's registry entry for that
name, leaves every other entry and the key sequence unchanged, and returns
successfully. -/
theorem addNode_duplicate_overwrites (b : WorkflowBuilder) (name : String)
    (node : Node) (h : (b.nodes.lookup name).isSome = true) :
    (addNode b name node).nodes.lookup name = some node ∧
    (addNode b name node).nodes.map Prod.fst = b.nodes.map Prod.fst ∧
    (∀ k, k ≠ name → (addNode b name node).nodes.lookup k = b.nodes.lookup k) ∧
    addNodeResult b name node = Except.ok (addNode b name node) := by
  refine ⟨?_, ?_, ?_, rfl⟩
  · rw [show (addNode b name node).nodes = dictInsert b.nodes name node from rfl,
      lookup_dictInsert]
    simp
  · rw [show (addNode b name node).nodes = dictInsert b.nodes name node from rfl]
    unfold dictInsert
    rw [if_pos h, keys_overwriteMap]
  · intro k hk
    rw [show (addNode b name node).nodes = dictInsert b.nodes name node from rfl,
      lookup_dictInsert, if_neg hk]

/-- Witness for the amended C7: re-registering "agent" overwrites the entry. -/
theorem addNode_duplicate_overwrites_witness :
    (addNode (addNode newBuilder "agent" (Node.handler reactAgentHandler))
        "agent" (Node.toolNode stubToolExec)).nodes.lookup "agent"
      = some (Node.toolNode stubToolExec) := by
  exact (addNode_duplicate_overwrites
    (addNode newBuilder "agent" (Node.handler reactAgentHandler)) "agent"
    (Node.toolNode stubToolExec) (by decide)).1

/-- Reading an in-range reference after writing it gives the written value. -/
theorem heapGet_heapSet_self (h : Heap) (r : Nat) (v : List Msg)
    (hr : r < h.length) :
    heapGet (heapSet h r v) r = v := by
  simp [heapGet, heapSet, List.getD, List.getElem?_set_self, hr]

/-- Extending the heap with a fresh list leaves in-range references unchanged. -/
theorem heapGet_extend (h : Heap) (x : List Msg) (r : Nat)
    (hr : r < h.length) :
    heapGet (h ++ [x]) r = heapGet h r := by
  simp [heapGet, List.getD, List.getElem?_append, hr]

/-- C9 counterexample: a caller-supplied history list that is non-`None` but
empty is falsy, so `MeetingRoomAgent.chat` replaces it by a fresh list — the
caller's list does not grow by one element. -/
theorem chat_empty_history_counterexample :
    heapGet (meetingRoomChatPrepare [[]] (some 0) "hello").1 0 = [] ∧
    (heapGet (meetingRoomChatPrepare [[]] (some 0) "hello").1 0).length ≠
      (heapGet ([[]] : Heap) 0).length + 1 := by decide

/-- C9 (amended): for every non-`None`, non-empty history list,
`MeetingRoomAgent.chat` and `SimpleBookingAgent.chat` append the new user
message to the caller's list in place (the caller's list grows by one), while
`BaseAgent.prepare_state` copies the history first and leaves every existing
list unchanged. -/
theorem chat_history_aliasing (h : Heap) (r : Nat) (message : String)
    (hr : r < h.length) (hne : heapGet h r ≠ []) :
    heapGet (meetingRoomChatPrepare h (some r) message).1 r
      = heapGet h r ++ [Msg.human message] ∧
    heapGet (simpleBookingChatPrepare h (some r) message).1 r
      = heapGet h r ++ [Msg.human message] ∧
    (heapGet (meetingRoomChatPrepare h (some r) message).1 r).length
      = (heapGet h r).length + 1 ∧
    (∀ r2, r2 < h.length →
      heapGet (prepareStateMessages h (some r) message).1 r2 = heapGet h r2) := by
  have hb : (heapGet h r).isEmpty = false := by
    cases hq : heapGet h r
    · exact absurd hq hne
    · rfl
  refine ⟨?_, ?_, ?_, ?_⟩
  · simp [meetingRoomChatPrepare, hb, heapGet_heapSet_self h r _ hr]
  · simp [simpleBookingChatPrepare, hb, heapGet_heapSet_self h r _ hr]
  · simp [meetingRoomChatPrepare, hb, heapGet_heapSet_self h r _ hr]
  · intro r2 hr2
    simp [prepareStateMessages, hb, heapGet_extend h _ r2 hr2]

/-- Witness for the amended C9 at a one-element history. -/
theorem chat_history_aliasing_witness :
    heapGet (meetingRoomChatPrepare [[Msg.human "a"]] (some 0) "b").1 0
      = [Msg.human "a", Msg.human "b"] := by
  have h := chat_history_aliasing [[Msg.human "a"]] 0 "b" (by decide) (by decide)
  simpa using h.1

/-- Looking a key up after a bucket-append map touches only that key. -/
theorem lookup_bucketAppendMap (b : List (String × List Tool)) (cat : String)
    (t : Tool) (k : String) :
    (b.map (fun e => if e.1 = cat then (e.1, e.2 ++ [t]) else e)).lookup k =
      if k = cat then (b.lookup k).map (fun ts => ts ++ [t]) else b.lookup k := by
  induction b with
  | nil => simp
  | cons e rest ih =>
    rcases e with ⟨a, w⟩
    by_cases he : a = cat
    · subst he
      by_cases hk : k = a
      · subst hk
        simp [List.lookup_cons]
      · simp [List.lookup_cons, beq_eq_false_iff_ne.mpr hk, hk, ih]
    · by_cases hk : k = a
      · subst hk
        have hkk : ¬ k = cat := fun hc => he hc
        simp [List.lookup_cons, he, hkk]
      · simp [List.lookup_cons, beq_eq_false_iff_ne.mpr hk, he, ih]

/-- `bucketAppend` seen through lookups: only the named bucket changes, and
only when it exists. -/
theorem lookup_bucketAppend (b : List (String × List Tool)) (cat : String)
    (t : Tool) (k : String) :
    (bucketAppend b cat t).lookup k =
      if k = cat then (b.lookup k).map (fun ts => ts ++ [t]) else b.lookup k := by
  unfold bucketAppend
  by_cases hs : (b.lookup cat).isSome
  · rw [if_pos hs, lookup_bucketAppendMap]
  · rw [if_neg hs]
    by_cases hk : k = cat
    · subst hk
      have hnone : b.lookup k = none := by
        cases hq : b.lookup k
        · rfl
        · rw [hq] at hs
          simp at hs
      simp [hnone]
    · rw [if_neg hk]

/-- A map preserving first components preserves the key sequence. -/
theorem keys_fstPreserving {α : Type} (d : List (String × α))
    (f : String × α → String × α) (hf : ∀ e, (f e).1 = e.1) :
    (d.map f).map Prod.fst = d.map Prod.fst := by
  induction d with
  | nil => rfl
  | cons e rest ih => simp [hf, ih]

/-- `bucketAppend` preserves the bucket keys. -/
theorem keys_bucketAppend (b : List (String × List Tool)) (cat : String)
    (t : Tool) :
    (bucketAppend b cat t).map Prod.fst = b.map Prod.fst := by
  unfold bucketAppend
  by_cases hs : (b.lookup cat).isSome
  · rw [if_pos hs]
    exact keys_fstPreserving _ _ (fun e => by by_cases he : e.1 = cat <;> simp [he])
  · rw [if_neg hs]

/-- `bucketAppend` preserves which buckets exist. -/
theorem isSome_lookup_bucketAppend (b : List (String × List Tool))
    (cat : String) (t : Tool) (k : String) :
    ((bucketAppend b cat t).lookup k).isSome = (b.lookup k).isSome := by
  rw [lookup_bucketAppend]
  by_cases hk : k = cat
  · simp [hk]
  · rw [if_neg hk]

/-- Membership in a bucket after `bucketAppend`. -/
theorem mem_bucket_bucketAppend (b : List (String × List Tool)) (cat : String)
    (t x : Tool) (k : String) :
    x ∈ bucket (bucketAppend b cat t) k ↔
      x ∈ bucket b k ∨ (x = t ∧ k = cat ∧ (b.lookup k).isSome = true) := by
  unfold bucket
  rw [lookup_bucketAppend]
  by_cases hk : k = cat
  · subst hk
    cases hq : b.lookup k
    · simp [hq]
    · simp [hq, List.mem_append]
  · simp [hk]

/-- Folding `bucketAppend` over a category list preserves which buckets
exist. -/
theorem isSome_lookup_catsFold (cats : List String)
    (b : List (String × List Tool)) (t : Tool) (k : String) :
    ((cats.foldl (fun cl cat => bucketAppend cl cat t) b).lookup k).isSome =
      (b.lookup k).isSome := by
  induction cats generalizing b with
  | nil => rfl
  | cons c cs ih =>
    rw [List.foldl_cons, ih, isSome_lookup_bucketAppend]

/-- Membership in a bucket after appending a tool to every category of a
list. -/
theorem mem_bucket_catsFold (cats : List String)
    (b : List (String × List Tool)) (t x : Tool) (k : String) :
    x ∈ bucket (cats.foldl (fun cl cat => bucketAppend cl cat t) b) k ↔
      x ∈ bucket b k ∨ (x = t ∧ k ∈ cats ∧ (b.lookup k).isSome = true) := by
  induction cats generalizing b with
  | nil => simp
  | cons c cs ih =>
    rw [List.foldl_cons, ih, mem_bucket_bucketAppend, isSome_lookup_bucketAppend]
    simp only [List.mem_cons]
    tauto

/-- `classifyStep` preserves which buckets exist. -/
theorem isSome_lookup_classifyStep (c : Classifier)
    (cl : List (String × List Tool)) (tool : Tool) (k : String) :
    ((classifyStep c cl tool).lookup k).isSome = (cl.lookup k).isSome := by
  unfold classifyStep
  by_cases hc : getToolCategories c tool = []
  · simp only [hc, if_pos rfl]
    exact isSome_lookup_bucketAppend cl "uncategorized" tool k
  · rw [if_neg hc]
    exact isSome_lookup_catsFold _ cl tool k

/-- Membership in a bucket after one `classify_tools` loop step. -/
theorem mem_bucket_classifyStep (c : Classifier)
    (cl : List (String × List Tool)) (tool x : Tool) (k : String) :
    x ∈ bucket (classifyStep c cl tool) k ↔
      x ∈ bucket cl k ∨ (x = tool ∧ (cl.lookup k).isSome = true ∧
        ((getToolCategories c tool = [] ∧ k = "uncategorized") ∨
          k ∈ getToolCategories c tool)) := by
  unfold classifyStep
  by_cases hc : getToolCategories c tool = []
  · rw [if_pos hc, mem_bucket_bucketAppend]
    simp [hc]
    tauto
  · rw [if_neg hc, mem_bucket_catsFold]
    simp [hc]
    tauto

/-- Membership in a bucket after folding `classifyStep` over a tool list. -/
theorem mem_bucket_classifyFold (c : Classifier) (ts : List Tool)
    (cl : List (String × List Tool)) (x : Tool) (k : String) :
    x ∈ bucket (ts.foldl (classifyStep c) cl) k ↔
      x ∈ bucket cl k ∨ ((cl.lookup k).isSome = true ∧ x ∈ ts ∧
        ((getToolCategories c x = [] ∧ k = "uncategorized") ∨
          k ∈ getToolCategories c x)) := by
  induction ts generalizing cl with
  | nil => simp
  | cons tool rest ih =>
    rw [List.foldl_cons, ih, mem_bucket_classifyStep, isSome_lookup_classifyStep]
    constructor
    · rintro ((hx | ⟨rfl, hs, hp⟩) | ⟨hs, hmem, hp⟩)
      · exact Or.inl hx
      · exact Or.inr ⟨hs, List.mem_cons_self _ _, hp⟩
      · exact Or.inr ⟨hs, List.mem_cons_of_mem _ hmem, hp⟩
    · rintro (hx | ⟨hs, hmem, hp⟩)
      · exact Or.inl (Or.inl hx)
      · rcases List.mem_cons.mp hmem with rfl | hmem2
        · exact Or.inl (Or.inr ⟨rfl, hs, hp⟩)
        · exact Or.inr ⟨hs, hmem2, hp⟩

/-- `classifyStep` preserves the bucket keys. -/
theorem keys_classifyStep (c : Classifier) (cl : List (String × List Tool))
    (tool : Tool) :
    (classifyStep c cl tool).map Prod.fst = cl.map Prod.fst := by
  unfold classifyStep
  by_cases hc : getToolCategories c tool = []
  · simp only [hc, if_pos rfl]
    exact keys_bucketAppend cl "uncategorized" tool
  · rw [if_neg hc]
    generalize getToolCategories c tool = cats
    induction cats generalizing cl with
    | nil => rfl
    | cons d ds ihe =>
      rw [List.foldl_cons, ihe, keys_bucketAppend]

/-- The classification result always has exactly the four literal buckets. -/
theorem keys_classifyTools (c : Classifier) (ts : List Tool) :
    (classifyTools c ts).map Prod.fst =
      ["booking", "query", "management", "uncategorized"] := by
  unfold classifyTools
  have : ∀ cl : List (String × List Tool),
      (ts.foldl (classifyStep c) cl).map Prod.fst = cl.map Prod.fst := by
    induction ts with
    | nil => intro cl; rfl
    | cons tool rest ih =>
      intro cl
      rw [List.foldl_cons, ih, keys_classifyStep]
  rw [this emptyBuckets]
  rfl

/-- Every bucket of the initial dictionary is empty. -/
theorem bucket_emptyBuckets (k : String) : bucket emptyBuckets k = [] := by
  by_cases h1 : k = "booking"
  · subst h1
    decide
  · by_cases h2 : k = "query"
    · subst h2
      decide
    · by_cases h3 : k = "management"
      · subst h3
        decide
      · by_cases h4 : k = "uncategorized"
        · subst h4
          decide
        · have hnone : emptyBuckets.lookup k = none := by
            rw [List.lookup_eq_none_iff]
            intro p hp
            simp [emptyBuckets] at hp
            rcases hp with rfl | rfl | rfl | rfl <;>
              simp only [bne_iff_ne, ne_eq] <;> assumption
          simp [bucket, hnone]

/-- A bucket key with an entry is one of the four literal bucket names. -/
theorem emptyBuckets_isSome_mem (k : String)
    (h : (emptyBuckets.lookup k).isSome = true) :
    k ∈ (["booking", "query", "management", "uncategorized"] : List String) := by
  rw [List.lookup_isSome_iff] at h
  rcases h with ⟨p, hp, hk⟩
  rw [beq_iff_eq] at hk
  simp [emptyBuckets] at hp
  rcases hp with rfl | rfl | rfl | rfl <;> subst hk <;> simp

/-- A key absent from a table is also absent from its reversal. -/
theorem lookup_reverse_eq_none {α : Type} (l : List (String × α)) (k : String)
    (h : l.lookup k = none) : l.reverse.lookup k = none := by
  rw [List.lookup_eq_none_iff] at h ⊢
  intro p hp
  exact h p (List.mem_reverse.mp hp)

/-- C10: for every classifier and tool list, `classify_tools` returns exactly
the four buckets booking, query, management and uncategorized; a tool whose
computed category list is empty lands in `uncategorized`; and a tool whose
computed category list is non-empty but contains only names outside the four
buckets is placed in no bucket at all. -/
theorem classifyTools_buckets_structure (c : Classifier) (ts : List Tool) :
    (classifyTools c ts).map Prod.fst =
      ["booking", "query", "management", "uncategorized"] ∧
    (∀ t ∈ ts, getToolCategories c t = [] →
      t ∈ bucket (classifyTools c ts) "uncategorized") ∧
    (∀ t ∈ ts, getToolCategories c t ≠ [] →
      (∀ cat ∈ getToolCategories c t,
        cat ∉ (["booking", "query", "management", "uncategorized"] : List String)) →
      ∀ k, t ∉ bucket (classifyTools c ts) k) := by
  refine ⟨keys_classifyTools c ts, ?_, ?_⟩
  · intro t ht hc
    unfold classifyTools
    rw [mem_bucket_classifyFold]
    exact Or.inr ⟨by decide, ht, Or.inl ⟨hc, rfl⟩⟩
  · intro t ht hc hout k hmem
    unfold classifyTools at hmem
    rw [mem_bucket_classifyFold] at hmem
    rcases hmem with hm | ⟨hs, _, hp⟩
    · rw [bucket_emptyBuckets] at hm
      simp at hm
    · rcases hp with ⟨hceq, _⟩ | hkin
      · exact hc hceq
      · exact hout k hkin (emptyBuckets_isSome_mem k hs)

/-- Witness for C10: under an explicit custom table, a tool mapped to the
foreign category "other" lands in no bucket, a tool with no categories lands
in `uncategorized`, and the result has the four literal keys. -/
theorem classifyTools_buckets_structure_witness :
    (classifyTools (mkClassifier "explicit" (some [("x", ["other"])]))
        [Tool.mk "x" "", Tool.mk "y" ""]).map Prod.fst =
      ["booking", "query", "management", "uncategorized"] ∧
    Tool.mk "y" "" ∈ bucket (classifyTools
      (mkClassifier "explicit" (some [("x", ["other"])]))
      [Tool.mk "x" "", Tool.mk "y" ""]) "uncategorized" ∧
    Tool.mk "x" "" ∉ bucket (classifyTools
      (mkClassifier "explicit" (some [("x", ["other"])]))
      [Tool.mk "x" "", Tool.mk "y" ""]) "booking" := by
  have h := classifyTools_buckets_structure
    (mkClassifier "explicit" (some [("x", ["other"])]))
    [Tool.mk "x" "", Tool.mk "y" ""]
  exact ⟨h.1,
    h.2.1 (Tool.mk "y" "") (by decide) (by decide),
    h.2.2 (Tool.mk "x" "") (by decide) (by decide) (by decide) "booking"⟩

/-- C6: under the explicit strategy with the default configuration, every
tool named "get_available_rooms" appears in both the booking and the query
bucket and in no other bucket, and every tool whose name is absent from the
configuration table lands in the uncategorized bucket. -/
theorem classifyTools_explicit_default (ts : List Tool) (t : Tool)
    (ht : t ∈ ts) :
    (t.name = "get_available_rooms" →
      t ∈ bucket (classifyTools (mkClassifier "explicit" none) ts) "booking" ∧
      t ∈ bucket (classifyTools (mkClassifier "explicit" none) ts) "query" ∧
      (∀ k, k ≠ "booking" → k ≠ "query" →
        t ∉ bucket (classifyTools (mkClassifier "explicit" none) ts) k)) ∧
    (TOOL_CLASSIFICATION_CONFIG.lookup t.name = none →
      t ∈ bucket (classifyTools (mkClassifier "explicit" none) ts)
        "uncategorized") := by
  have hform : getToolCategories (mkClassifier "explicit" none) t =
      pyDictGet TOOL_CLASSIFICATION_CONFIG t.name [] := rfl
  constructor
  · intro hname
    have hcats : getToolCategories (mkClassifier "explicit" none) t =
        ["booking", "query"] := by
      rw [hform, hname]
      decide
    refine ⟨?_, ?_, ?_⟩
    · unfold classifyTools
      rw [mem_bucket_classifyFold]
      exact Or.inr ⟨by decide, ht, Or.inr (by rw [hcats]; simp)⟩
    · unfold classifyTools
      rw [mem_bucket_classifyFold]
      exact Or.inr ⟨by decide, ht, Or.inr (by rw [hcats]; simp)⟩
    · intro k hk1 hk2 hmem
      unfold classifyTools at hmem
      rw [mem_bucket_classifyFold] at hmem
      rcases hmem with hm | ⟨_, _, hp⟩
      · rw [bucket_emptyBuckets] at hm
        simp at hm
      · rcases hp with ⟨hceq, _⟩ | hkin
        · rw [hcats] at hceq
          simp at hceq
        · rw [hcats] at hkin
          simp only [List.mem_cons, List.not_mem_nil, or_false] at hkin
          rcases hkin with h | h
          · exact hk1 h
          · exact hk2 h
  · intro hnone
    have hcats : getToolCategories (mkClassifier "explicit" none) t = [] := by
      rw [hform]
      unfold pyDictGet
      rw [lookup_reverse_eq_none _ _ hnone]
      rfl
    unfold classifyTools
    rw [mem_bucket_classifyFold]
    exact Or.inr ⟨by decide, ht, Or.inl ⟨hcats, rfl⟩⟩

/-- Witness for C6 at a concrete two-tool list. -/
theorem classifyTools_explicit_default_witness :
    Tool.mk "get_available_rooms" "" ∈
      bucket (classifyTools (mkClassifier "explicit" none)
        [Tool.mk "get_available_rooms" "", Tool.mk "unknown_tool" ""]) "booking" ∧
    Tool.mk "get_available_rooms" "" ∈
      bucket (classifyTools (mkClassifier "explicit" none)
        [Tool.mk "get_available_rooms" "", Tool.mk "unknown_tool" ""]) "query" ∧
    Tool.mk "get_available_rooms" "" ∉
      bucket (classifyTools (mkClassifier "explicit" none)
        [Tool.mk "get_available_rooms" "", Tool.mk "unknown_tool" ""]) "management" ∧
    Tool.mk "unknown_tool" "" ∈
      bucket (classifyTools (mkClassifier "explicit" none)
        [Tool.mk "get_available_rooms" "", Tool.mk "unknown_tool" ""]) "uncategorized" := by
  have h1 := (classifyTools_explicit_default
    [Tool.mk "get_available_rooms" "", Tool.mk "unknown_tool" ""]
    (Tool.mk "get_available_rooms" "") (by decide)).1 (by decide)
  have h2 := (classifyTools_explicit_default
    [Tool.mk "get_available_rooms" "", Tool.mk "unknown_tool" ""]
    (Tool.mk "unknown_tool" "") (by decide)).2 (by decide)
  exact ⟨h1.1, h1.2.1, h1.2.2 "management" (by decide) (by decide), h2⟩
